import Mathlib

/-!
# Stratum log proxy: session relay, registry and setup

A shallow embedding of `src/tools/stratum_log_proxy/StratumProxy.hpp`.

* Objects owned through a pointer by exactly one owner (the two `evbuffer`s and the two
  `bufferevent`s of a `Session`) are stored inline in their owner together with their address.
* `Session` objects themselves live in a heap indexed by address, because the registry
  `sessions_` is a `set<Session *>`.
* Every allocation made through a library call is entered in a ledger of live resources and
  leaves it only through the matching release call.
* A null pointer dereference, the deletion of a dead object and `LOG(FATAL)` have no successor
  state: the functions concerned return `none`.
* A library call whose result the source tests (`SSL_new`, the `bufferevent` constructors,
  `evdns_base_new`, `event_base_new`, `inet_pton`, `evconnlistener_new_bind`,
  `bufferevent_socket_connect_hostname`) takes that result from an environment record. The
  calls whose result the source ignores (`evbuffer_new`, `bufferevent_write_buffer`,
  `evbuffer_add_buffer`, `evbuffer_drain`, `bufferevent_setcb`, `bufferevent_enable`) succeed.
* Logging is left out.
-/

namespace StratumProxy

/-- Contents of an `evbuffer`, oldest byte first. -/
abbrev Bytes := List UInt8

/-- Machine address. -/
abbrev Ptr := Nat

/-! ## libevent constants and buffer primitives -/

def BEV_EVENT_READING : Nat := 0x01
def BEV_EVENT_WRITING : Nat := 0x02
def BEV_EVENT_EOF : Nat := 0x10
def BEV_EVENT_ERROR : Nat := 0x20
def BEV_EVENT_TIMEOUT : Nat := 0x40
def BEV_EVENT_CONNECTED : Nat := 0x80

def EV_READ : Nat := 0x02
def EV_WRITE : Nat := 0x04

/-- Test `events & flag` as a C condition. -/
def hasFlag (events flag : Nat) : Bool := events &&& flag != 0

/-- The condition an event callback is raised for. `event2/bufferevent.h` documents the
argument `what` of a `bufferevent_event_cb` as the read or write direction together with one
of EOF, ERROR, TIMEOUT, CONNECTED; only a transport with deferred callbacks gets several
conditions in one mask, and the source creates every transport with
`BEV_OPT_CLOSE_ON_FREE | BEV_OPT_THREADSAFE` alone. -/
inductive EventKind
  | eof
  | error
  | timeout
  | connected
deriving DecidableEq, Repr

def EventKind.flag : EventKind → Nat
  | EventKind.eof => BEV_EVENT_EOF
  | EventKind.error => BEV_EVENT_ERROR
  | EventKind.timeout => BEV_EVENT_TIMEOUT
  | EventKind.connected => BEV_EVENT_CONNECTED

/-- A mask as libevent delivers it to an event callback of this program: any direction bits
and one condition. -/
structure EventMask where
  reading : Bool
  writing : Bool
  kind : EventKind
deriving DecidableEq, Repr

/-- The value of the argument `short events`. -/
def EventMask.events (what : EventMask) : Nat :=
  (if what.reading then BEV_EVENT_READING else 0) |||
    (if what.writing then BEV_EVENT_WRITING else 0) ||| what.kind.flag

def evbuffer_get_length (buf : Bytes) : Nat := buf.length

/-- Copy of the first `n` bytes; the buffer itself is left as it is. -/
def evbuffer_copyout (buf : Bytes) (n : Nat) : Bytes := buf.take n

/-- Remove the first `n` bytes. -/
def evbuffer_drain (buf : Bytes) (n : Nat) : Bytes := buf.drop n

/-- Move all of `src` to the end of `dst`; returns the new `(dst, src)`. -/
def evbuffer_add_buffer (dst src : Bytes) : Bytes × Bytes := (dst ++ src, [])

/-- Callback wiring of a transport, as set by `bufferevent_setcb`. -/
inductive Leg
  | down
  | up
deriving DecidableEq, Repr

structure Callbacks where
  /-- Which pair is installed: `downReadCallback`/`downEventCallback` or the `up` pair. -/
  leg : Leg
  /-- The `void *data` argument: address of the session. -/
  data : Ptr
deriving DecidableEq, Repr

/-- TLS state a transport was created in. -/
inductive SslState
  | accepting
  | connecting
deriving DecidableEq, Repr

structure Bufferevent where
  ptr : Ptr
  input : Bytes
  output : Bytes
  ssl : Option SslState
  cb : Option Callbacks
  enabled : Nat
deriving DecidableEq, Repr

/-- A transport as returned by `bufferevent_socket_new` / `bufferevent_openssl_socket_new`:
empty buffers, no callbacks, writing enabled. -/
def Bufferevent.create (ptr : Ptr) (ssl : Option SslState) : Bufferevent :=
  { ptr := ptr, input := [], output := [], ssl := ssl, cb := none, enabled := EV_WRITE }

/-- Move all of `buf` to the output of `bev`; returns the transport and the emptied buffer. -/
def bufferevent_write_buffer (bev : Bufferevent) (buf : Bytes) : Bufferevent × Bytes :=
  let r := evbuffer_add_buffer bev.output buf
  ({ bev with output := r.1 }, r.2)

def bufferevent_setcb (bev : Bufferevent) (leg : Leg) (data : Ptr) : Bufferevent :=
  { bev with cb := some { leg := leg, data := data } }

def bufferevent_enable (bev : Bufferevent) (events : Nat) : Bufferevent :=
  { bev with enabled := bev.enabled ||| events }

structure Evbuffer where
  ptr : Ptr
  data : Bytes
deriving DecidableEq, Repr

/-! ## Collaborators declared outside this file -/

/-- Modelled from the spec: `StratumWorker` is declared in `StratumBase.hpp`; the spec's
WorkerIdentity is {wallet, userName, workerName, password}, the members `onSubmitLogin` logs. -/
structure StratumWorker where
  wallet_ : String
  userName_ : String
  workerName_ : String
  password_ : String
deriving DecidableEq, Repr

/-- Modelled from the spec: `PoolInfo` is declared in `StratumBase.hpp`; members in the order of
the aggregate initialiser in `setup()` (enable_tls, host, port, user, pwd, worker). -/
structure PoolInfo where
  enableTLS_ : Bool
  host_ : String
  port_ : Nat
  user_ : String
  pwd_ : String
  worker_ : String
deriving DecidableEq, Repr

/-- One call made on the analyzer. -/
inductive AnalyzerCall
  | setOnSubmitLogin
  | addUploadText (text : Bytes)
  | addDownloadText (text : Bytes)
  | runOnce
  | run
deriving DecidableEq, Repr

/-- Modelled from the spec: `StratumAnalyzer` is declared in `StratumAnalyzer.hpp`; the spec gives
its boundary (addUploadText, addDownloadText, runOnce, run, login callback). The model keeps the
calls the session makes on it, in order. -/
structure StratumAnalyzer where
  ptr : Ptr
  calls : List AnalyzerCall
deriving DecidableEq, Repr

def StratumAnalyzer.call (a : StratumAnalyzer) (c : AnalyzerCall) : StratumAnalyzer :=
  { a with calls := a.calls ++ [c] }

/-! ## Session -/

structure Session where
  ip_ : String
  port_ : Nat
  worker_ : StratumWorker
  poolInfo_ : PoolInfo
  evdnsBase_ : Ptr
  downSession_ : Option Bufferevent
  upSession_ : Option Bufferevent
  downSessionConnected_ : Bool
  upSessionConnected_ : Bool
  downBuffer_ : Evbuffer
  upBuffer_ : Evbuffer
  analyzer_ : StratumAnalyzer
deriving DecidableEq, Repr

namespace Session

/-- The constructor body, given the addresses its four allocations returned
(`evbuffer_new` twice, `evdns_base_new`, `make_shared<StratumAnalyzer>`).
`port_` and the scalars of `poolInfo_` are left uninitialised by the source and are read
nowhere in it; they are fixed to zero here. -/
def create (down up : Option Bufferevent) (downBuf upBuf evdns analyzer : Ptr) : Session :=
  { ip_ := ""
    port_ := 0
    worker_ := { wallet_ := "", userName_ := "", workerName_ := "", password_ := "" }
    poolInfo_ := { enableTLS_ := false, host_ := "", port_ := 0, user_ := "", pwd_ := "",
                   worker_ := "" }
    evdnsBase_ := evdns
    downSession_ := down
    upSession_ := up
    downSessionConnected_ := false
    upSessionConnected_ := false
    downBuffer_ := { ptr := downBuf, data := [] }
    upBuffer_ := { ptr := upBuf, data := [] }
    analyzer_ := { ptr := analyzer, calls := [AnalyzerCall.setOnSubmitLogin] } }

/-- Body of `onSubmitLogin`, the login callback the constructor hands to the analyzer. -/
def onSubmitLogin (session : Session) (worker : StratumWorker) : Session :=
  let session := { session with worker_ := worker }
  { session with analyzer_ := session.analyzer_.call AnalyzerCall.run }

/-- Body of `downReadCallback`. `bev` is the transport the callback is installed on, which
`listenerCallback` makes the session's `downSession_`. -/
def downReadCallback (session : Session) : Option Session :=
  match session.downSession_ with
  | none => none
  | some bev =>
    let buffer := bev.input
    let content := evbuffer_copyout buffer (evbuffer_get_length buffer)
    let session :=
      { session with analyzer_ := session.analyzer_.call (AnalyzerCall.addUploadText content) }
    let session := { session with downSessionConnected_ := true }
    if session.upSessionConnected_ then
      match session.upSession_ with
      | none => none
      | some upSession =>
        let w1 := bufferevent_write_buffer upSession session.upBuffer_.data
        let upData := evbuffer_drain w1.2 (evbuffer_get_length w1.2)
        let w2 := bufferevent_write_buffer w1.1 buffer
        let buffer := evbuffer_drain w2.2 (evbuffer_get_length w2.2)
        some { session with
                upSession_ := some w2.1
                upBuffer_ := { session.upBuffer_ with data := upData }
                downSession_ := some { bev with input := buffer } }
    else
      let session := { session with analyzer_ := session.analyzer_.call AnalyzerCall.runOnce }
      let buffer := evbuffer_drain buffer (evbuffer_get_length buffer)
      some { session with downSession_ := some { bev with input := buffer } }

/-- Body of `upReadCallback`. `bev` is the transport the callback is installed on:
`connectUpstream` installs it on the transport it hands back in its reference parameter, which
the model takes to be the one the session holds as `upSession_`. -/
def upReadCallback (session : Session) : Option Session :=
  match session.upSession_ with
  | none => none
  | some bev =>
    let buffer := bev.input
    let content := evbuffer_copyout buffer (evbuffer_get_length buffer)
    let session :=
      { session with analyzer_ := session.analyzer_.call (AnalyzerCall.addDownloadText content) }
    let session := { session with upSessionConnected_ := true }
    if session.downSessionConnected_ then
      match session.downSession_ with
      | none => none
      | some downSession =>
        let w1 := bufferevent_write_buffer downSession session.downBuffer_.data
        let downData := evbuffer_drain w1.2 (evbuffer_get_length w1.2)
        let w2 := bufferevent_write_buffer w1.1 buffer
        let buffer := evbuffer_drain w2.2 (evbuffer_get_length w2.2)
        some { session with
                downSession_ := some w2.1
                downBuffer_ := { session.downBuffer_ with data := downData }
                upSession_ := some { bev with input := buffer } }
    else
      let r := evbuffer_add_buffer session.downBuffer_.data buffer
      let buffer := evbuffer_drain r.2 (evbuffer_get_length r.2)
      some { session with
              downBuffer_ := { session.downBuffer_ with data := r.1 }
              upSession_ := some { bev with input := buffer } }

/-- How an event callback ends. -/
inductive Outcome
  /-- The callback returned and the session lives on. -/
  | running (session : Session)
  /-- The callback ended in `session->server_->removeSession(session)`. -/
  | removed (session : Session)
deriving DecidableEq, Repr

/-- Body of `downEventCallback`, up to the call of `removeSession`. -/
def downEventCallback (events : Nat) (session : Session) : Option Outcome :=
  if hasFlag events BEV_EVENT_CONNECTED then
    let session := { session with downSessionConnected_ := true }
    match session.downSession_ with
    | none => none
    | some downSession =>
      let w := bufferevent_write_buffer downSession session.downBuffer_.data
      let downData := evbuffer_drain w.2 (evbuffer_get_length w.2)
      some (Outcome.running { session with
              downSession_ := some w.1
              downBuffer_ := { session.downBuffer_ with data := downData } })
  else
    some (Outcome.removed { session with downSessionConnected_ := false })

/-- Body of `upEventCallback`, up to the call of `removeSession`. -/
def upEventCallback (events : Nat) (session : Session) : Option Outcome :=
  if hasFlag events BEV_EVENT_CONNECTED then
    let session := { session with upSessionConnected_ := true }
    match session.upSession_ with
    | none => none
    | some upSession =>
      let w := bufferevent_write_buffer upSession session.upBuffer_.data
      let upData := evbuffer_drain w.2 (evbuffer_get_length w.2)
      some (Outcome.running { session with
              upSession_ := some w.1
              upBuffer_ := { session.upBuffer_ with data := upData } })
  else
    some (Outcome.removed { session with upSessionConnected_ := false })

/-! ### Session events -/

/-- What the reactor and the analyzer can deliver to one session. -/
inductive Event
  /-- The downstream transport received `chunk` and raised its read callback. -/
  | downRead (chunk : Bytes)
  /-- The upstream transport received `chunk` and raised its read callback. -/
  | upRead (chunk : Bytes)
  /-- The downstream transport raised its event callback with mask `events`. -/
  | downEvent (events : Nat)
  /-- The upstream transport raised its event callback with mask `events`. -/
  | upEvent (events : Nat)
  /-- The analyzer raised the login callback. When it does so from within `runOnce`, the
  callback runs between two statements of `downReadCallback` that touch other members, so the
  state is the one this event gives right after the read event. -/
  | login (worker : StratumWorker)
deriving DecidableEq, Repr

/-- The transport layer appends received bytes to the input buffer of a transport. -/
def receive (bev : Option Bufferevent) (chunk : Bytes) : Option Bufferevent :=
  bev.map fun b => { b with input := b.input ++ chunk }

def step (e : Event) (session : Session) : Option Outcome :=
  match e with
  | Event.downRead chunk =>
    (downReadCallback
      { session with downSession_ := receive session.downSession_ chunk }).map Outcome.running
  | Event.upRead chunk =>
    (upReadCallback
      { session with upSession_ := receive session.upSession_ chunk }).map Outcome.running
  | Event.downEvent events => downEventCallback events session
  | Event.upEvent events => upEventCallback events session
  | Event.login worker => some (Outcome.running (onSubmitLogin session worker))

/-- Deliver the events in order; delivery ends when the session is removed. -/
def run : List Event → Session → Option Outcome
  | [], session => some (Outcome.running session)
  | e :: es, session =>
    match step e session with
    | some (Outcome.running session) => run es session
    | r => r

/-- An event callback raised without the CONNECTED bit ends in `removeSession`. -/
def Event.isTeardown : Event → Bool
  | Event.downEvent events => !hasFlag events BEV_EVENT_CONNECTED
  | Event.upEvent events => !hasFlag events BEV_EVENT_CONNECTED
  | _ => false

/-- Bytes handed to the downstream transport for writing so far. -/
def downOutput (session : Session) : Bytes :=
  match session.downSession_ with
  | none => []
  | some b => b.output

/-- Bytes handed to the upstream transport for writing so far. -/
def upOutput (session : Session) : Bytes :=
  match session.upSession_ with
  | none => []
  | some b => b.output

def downInput (session : Session) : Bytes :=
  match session.downSession_ with
  | none => []
  | some b => b.input

def upInput (session : Session) : Bytes :=
  match session.upSession_ with
  | none => []
  | some b => b.input

/-- The chunks read from upstream in `es`, concatenated in read order. -/
def upChunks : List Event → Bytes
  | [] => []
  | Event.upRead chunk :: es => chunk ++ upChunks es
  | _ :: es => upChunks es

/-- The session an outcome carries. -/
def Outcome.session : Outcome → Session
  | Outcome.running session => session
  | Outcome.removed session => session

/-- The session with the record of analyzer calls replaced by `l`. -/
def withCalls (l : List AnalyzerCall) (session : Session) : Session :=
  { session with analyzer_ := { session.analyzer_ with calls := l } }

def Outcome.withCalls (l : List AnalyzerCall) : Outcome → Outcome
  | Outcome.running session => Outcome.running (session.withCalls l)
  | Outcome.removed session => Outcome.removed (session.withCalls l)

/-- Everything an outcome holds except the record of analyzer calls: both transports with
their buffers, both pending buffers, both flags, the worker. -/
def Outcome.relayState (o : Outcome) : Outcome := o.withCalls []

/-- A session as the constructor leaves it, on two transports that have moved no data. -/
def fresh : Session :=
  Session.create (some (Bufferevent.create 1 none)) (some (Bufferevent.create 2 none)) 3 4 5 6

/-- A session in the relaying state that still holds bytes in both pending buffers. -/
def relaying : Session :=
  { fresh with
    downSessionConnected_ := true
    upSessionConnected_ := true
    downBuffer_ := { ptr := 3, data := [8] }
    upBuffer_ := { ptr := 4, data := [7] } }

/-- A handshake read, the login, the upstream connect, one read on each leg. -/
def sampleEvents : List Event :=
  [Event.downRead [1], Event.login ⟨"w", "u", "x", "p"⟩, Event.upEvent 0x80, Event.upRead [2],
    Event.downRead [3, 4]]

/-- The state `sampleEvents` takes `fresh` to. -/
def served : Session :=
  { fresh with
    worker_ := ⟨"w", "u", "x", "p"⟩
    downSessionConnected_ := true
    upSessionConnected_ := true
    downSession_ := some { Bufferevent.create 1 none with output := [2] }
    upSession_ := some { Bufferevent.create 2 none with output := [3, 4] }
    analyzer_ :=
      { ptr := 6
        calls := [AnalyzerCall.setOnSubmitLogin, AnalyzerCall.addUploadText [1],
          AnalyzerCall.runOnce, AnalyzerCall.run, AnalyzerCall.addDownloadText [2],
          AnalyzerCall.addUploadText [3, 4]] } }

end Session

/-! ## Configuration -/

/-- One element of the `pools` list of the configuration. -/
structure PoolSetting where
  name : String
  enable_tls : Bool
  host : String
  port : Nat
  user : String
  pwd : String
  worker : String
deriving DecidableEq, Repr

/-- The settings of the `libconfig` object the proxy reads. -/
structure Config where
  enable_tls : Bool
  tls_cert_file : String
  tls_key_file : String
  listen_addr : String
  listen_port : Nat
  pools : List PoolSetting
deriving DecidableEq, Repr

/-! ## Process state -/

/-- An object obtained from an allocating call and not yet released. -/
inductive Resource
  | session (p : Ptr)
  | evbuffer (p : Ptr)
  | bufferevent (p : Ptr)
  | evdnsBase (p : Ptr)
  | analyzer (p : Ptr)
  | eventBase (p : Ptr)
  | listener (p : Ptr)
deriving DecidableEq, Repr

/-- One call of `bufferevent_socket_connect_hostname`. -/
structure ConnectCall where
  bev : Ptr
  evdns : Ptr
  host : String
  port : Nat
deriving DecidableEq, Repr

end StratumProxy

/-- The `StratumProxy` object together with the process state its methods act on. -/
structure StratumProxy where
  config_ : StratumProxy.Config
  enableTLS_ : Bool
  sslCTX_ : Option StratumProxy.Ptr
  sinListen_ : Option (String × Nat)
  base_ : Option StratumProxy.Ptr
  listener_ : Option StratumProxy.Ptr
  pools_ : List (String × StratumProxy.PoolInfo)
  sessions_ : List StratumProxy.Ptr
  /-- Live `Session` objects by address. -/
  heap : StratumProxy.Ptr → Option StratumProxy.Session
  /-- Ledger of live resources. -/
  live : List StratumProxy.Resource
  /-- Next address the allocator hands out. -/
  nextPtr : StratumProxy.Ptr
  /-- Set once `event_base_loopexit` has been requested. -/
  loopExit : Bool
  /-- Connection attempts issued so far, oldest first. -/
  connects : List StratumProxy.ConnectCall

namespace StratumProxy

/-- The constructor; `sslCTX` is what `get_server_SSL_CTX` returned (it aborts the process
on any error, so there is a context whenever TLS is enabled). -/
def create (config : Config) (sslCTX : Ptr) : StratumProxy :=
  { config_ := config
    enableTLS_ := config.enable_tls
    sslCTX_ := if config.enable_tls then some sslCTX else none
    sinListen_ := none
    base_ := none
    listener_ := none
    pools_ := []
    sessions_ := []
    heap := fun _ => none
    live := []
    nextPtr := 1
    loopExit := false
    connects := [] }

/-- Allocate one object of kind `kind` at a fresh address. -/
def alloc (server : StratumProxy) (kind : Ptr → Resource) : Ptr × StratumProxy :=
  (server.nextPtr,
    { server with nextPtr := server.nextPtr + 1, live := kind server.nextPtr :: server.live })

/-- Release `r`. -/
def free (live : List Resource) (r : Resource) : List Resource :=
  live.filter fun x => decide (x ≠ r)

def store (server : StratumProxy) (p : Ptr) (session : Session) : StratumProxy :=
  { server with heap := fun q => if q = p then some session else server.heap q }

/-- Method `stop()`. -/
def stop (server : StratumProxy) : StratumProxy :=
  { server with loopExit := true }

/-! ### setup -/

/-- Results of the library calls `setup()` makes. -/
structure SetupEnv where
  /-- Whether `event_base_new` returned a base. -/
  baseNew : Bool
  /-- Return value of `inet_pton(AF_INET, ip, _)`. -/
  inet_pton : String → Int
  /-- Whether `evconnlistener_new_bind` returned a listener. -/
  listenerNew : Bool

/-- Assignment `m[k] = v` on a `std::map`: replaces the value of an existing key. The list
keeps insertion order where the map keeps key order. -/
def mapAssign (m : List (String × PoolInfo)) (k : String) (v : PoolInfo) :
    List (String × PoolInfo) :=
  match m with
  | [] => [(k, v)]
  | (k0, v0) :: rest => if k0 = k then (k, v) :: rest else (k0, v0) :: mapAssign rest k v

/-- The aggregate the first loop of `setup()` builds from one pool setting. -/
def PoolSetting.toPoolInfo (p : PoolSetting) : PoolInfo :=
  { enableTLS_ := p.enable_tls
    host_ := p.host
    port_ := p.port % 65536
    user_ := p.user
    pwd_ := p.pwd
    worker_ := p.worker }

/-- The first loop of `setup()`. -/
def loadPools (pools_ : List (String × PoolInfo)) (pools : List PoolSetting) :
    List (String × PoolInfo) :=
  pools.foldl (fun m p => mapAssign m p.name p.toPoolInfo) pools_

/-- The condition under which the second loop of `setup()` returns false. -/
def invalidPool (itr : String × PoolInfo) : Bool :=
  itr.2.host_.isEmpty || itr.2.port_ == 0

/-- Method `setup()`: the return value and the state it leaves. -/
def setup (server : StratumProxy) (env : SetupEnv) : Bool × StratumProxy :=
  if !env.baseNew then (false, { server with base_ := none }) else
  let a := alloc server Resource.eventBase
  let server := { a.2 with base_ := some a.1 }
  let listenIP := server.config_.listen_addr
  let listenPort := server.config_.listen_port % 65536
  let server := { server with sinListen_ := some (listenIP, listenPort) }
  if listenIP.isEmpty || env.inet_pton listenIP == 0 then (false, server) else
  if !env.listenerNew then (false, { server with listener_ := none }) else
  let a := alloc server Resource.listener
  let server := { a.2 with listener_ := some a.1 }
  let server := { server with pools_ := loadPools server.pools_ server.config_.pools }
  if server.pools_.any invalidPool then (false, server) else (true, server)

/-! ### Session registry -/

/-- Destructor `~Session()`: the releases of the body, then the member `analyzer_`, a
`shared_ptr` whose only owner is the session. -/
def Session.destroy (session : Session) (live : List Resource) : List Resource :=
  let live := free live (Resource.evbuffer session.downBuffer_.ptr)
  let live := free live (Resource.evbuffer session.upBuffer_.ptr)
  let live :=
    match session.downSession_ with
    | some b => free live (Resource.bufferevent b.ptr)
    | none => live
  let live :=
    match session.upSession_ with
    | some b => free live (Resource.bufferevent b.ptr)
    | none => live
  free live (Resource.analyzer session.analyzer_.ptr)

/-- Method `removeSession(session)`: erase from the set, then `delete`. -/
def removeSession (server : StratumProxy) (session : Ptr) : Option StratumProxy :=
  let server := { server with sessions_ := server.sessions_.filter fun q => decide (q ≠ session) }
  match server.heap session with
  | none => none
  | some s =>
    some { server with
            live := free (Session.destroy s server.live) (Resource.session session)
            heap := fun q => if q = session then none else server.heap q }

/-! ### Callbacks as the reactor invokes them, with `data` the session address -/

def downReadCallback (server : StratumProxy) (data : Ptr) : Option StratumProxy :=
  match server.heap data with
  | none => none
  | some session => (Session.downReadCallback session).map (store server data)

def upReadCallback (server : StratumProxy) (data : Ptr) : Option StratumProxy :=
  match server.heap data with
  | none => none
  | some session => (Session.upReadCallback session).map (store server data)

def finish (server : StratumProxy) (data : Ptr) : Option Session.Outcome → Option StratumProxy
  | none => none
  | some (Session.Outcome.running session) => some (store server data session)
  | some (Session.Outcome.removed session) => removeSession (store server data session) data

def downEventCallback (server : StratumProxy) (events : Nat) (data : Ptr) :
    Option StratumProxy :=
  match server.heap data with
  | none => none
  | some session => finish server data (Session.downEventCallback events session)

def upEventCallback (server : StratumProxy) (events : Nat) (data : Ptr) :
    Option StratumProxy :=
  match server.heap data with
  | none => none
  | some session => finish server data (Session.upEventCallback events session)

def onSubmitLogin (server : StratumProxy) (data : Ptr) (worker : StratumWorker) :
    Option StratumProxy :=
  match server.heap data with
  | none => none
  | some session => some (store server data (Session.onSubmitLogin session worker))

/-! ### Accept path -/

/-- Results of the library calls made while a connection is accepted or dialled. -/
structure CallEnv where
  /-- Whether `SSL_new` returned an object. -/
  sslNew : Bool
  /-- Whether the `bufferevent` constructor returned an object. -/
  bevNew : Bool
  /-- Whether `evdns_base_new` returned an object. -/
  evdnsNew : Bool
  /-- Return value of `bufferevent_socket_connect_hostname`. -/
  connectRes : Int
deriving DecidableEq, Repr

/-- Expression `new Session(down, up, server)`: the object, then the constructor body. `none` is the
`LOG(FATAL)` of the constructor. -/
def newSession (server : StratumProxy) (down up : Option Bufferevent) (env : CallEnv) :
    Option (Ptr × StratumProxy) :=
  let this := alloc server Resource.session
  let downBuf := alloc this.2 Resource.evbuffer
  let upBuf := alloc downBuf.2 Resource.evbuffer
  if !env.evdnsNew then none else
  let evdns := alloc upBuf.2 Resource.evdnsBase
  let analyzer := alloc evdns.2 Resource.analyzer
  some (this.1,
    store analyzer.2 this.1 (Session.create down up downBuf.1 upBuf.1 evdns.1 analyzer.1))

/-- Statement `sessions_.insert(session)`. -/
def insertSession (server : StratumProxy) (session : Ptr) : StratumProxy :=
  { server with sessions_ := server.sessions_.insert session }

/-- Apply `f` to the downstream transport of the session at `session`. -/
def onDownBev (server : StratumProxy) (session : Ptr) (f : Bufferevent → Bufferevent) :
    StratumProxy :=
  match server.heap session with
  | none => server
  | some s => store server session { s with downSession_ := s.downSession_.map f }

/-- The states `listenerCallback` passes through, one per statement that changes the state,
in order; `none` is the `LOG(FATAL)` of the `Session` constructor. -/
def listenerCallbackTrace (server : StratumProxy) (env : CallEnv) :
    Option (List StratumProxy) :=
  let made : Option (Bufferevent × StratumProxy) :=
    if server.enableTLS_ then
      if !env.sslNew then none
      else if !env.bevNew then none
      else
        let a := alloc server Resource.bufferevent
        some (Bufferevent.create a.1 (some SslState.accepting), a.2)
    else
      if !env.bevNew then none
      else
        let a := alloc server Resource.bufferevent
        some (Bufferevent.create a.1 none, a.2)
  match made with
  | none => some [stop server]
  | some (downBev, server1) =>
    match newSession server1 (some downBev) none env with
    | none => none
    | some (session, server2) =>
      let server3 := insertSession server2 session
      let server4 := onDownBev server3 session fun b => bufferevent_setcb b Leg.down session
      let server5 := onDownBev server4 session fun b => bufferevent_enable b (EV_READ ||| EV_WRITE)
      some [server1, server2, server3, server4, server5]

/-- Function `listenerCallback`: the state it returns in. -/
def listenerCallback (server : StratumProxy) (env : CallEnv) : Option StratumProxy :=
  match listenerCallbackTrace server env with
  | none => none
  | some states => states.getLast?

/-! ### Upstream connector -/

/-- Method `connectUpstream(session, upBev, serverInfo)`: the return value, the transport left
in the reference parameter `upBev`, and the state. `none` is the dereference of a dead
`session`. -/
def connectUpstream (server : StratumProxy) (session : Ptr) (serverInfo : PoolInfo)
    (env : CallEnv) : Option (Bool × Option Bufferevent × StratumProxy) :=
  let made : Option (Bufferevent × StratumProxy) :=
    if serverInfo.enableTLS_ then
      if !env.sslNew then none
      else if !env.bevNew then none
      else
        let a := alloc server Resource.bufferevent
        some (Bufferevent.create a.1 (some SslState.connecting), a.2)
    else
      if !env.bevNew then none
      else
        let a := alloc server Resource.bufferevent
        some (Bufferevent.create a.1 none, a.2)
  match made with
  | none => some (false, none, server)
  | some (upBev, server) =>
    let upBev := bufferevent_setcb upBev Leg.up session
    let upBev := bufferevent_enable upBev (EV_READ ||| EV_WRITE)
    match server.heap session with
    | none => none
    | some s =>
      let server :=
        { server with
          connects := server.connects ++
            [{ bev := upBev.ptr, evdns := s.evdnsBase_, host := serverInfo.host_,
               port := serverInfo.port_ }] }
      if env.connectRes ≠ 0 then some (false, some upBev, server)
      else some (true, some upBev, server)

/-! ### Named states -/

/-- The transport `listenerCallback` creates. -/
def acceptedBev (server : StratumProxy) : Bufferevent :=
  Bufferevent.create server.nextPtr
    (if server.enableTLS_ = true then some SslState.accepting else none)

/-- The state `listenerCallback` is in once the `Session` constructor has returned. -/
def acceptedState (server : StratumProxy) : StratumProxy :=
  store
    { server with
      nextPtr := server.nextPtr + 6
      live := Resource.analyzer (server.nextPtr + 5) ::
        Resource.evdnsBase (server.nextPtr + 4) :: Resource.evbuffer (server.nextPtr + 3) ::
        Resource.evbuffer (server.nextPtr + 2) :: Resource.session (server.nextPtr + 1) ::
        Resource.bufferevent server.nextPtr :: server.live }
    (server.nextPtr + 1)
    (Session.create (some (acceptedBev server)) none (server.nextPtr + 2) (server.nextPtr + 3)
      (server.nextPtr + 4) (server.nextPtr + 5))

/-- The transport `connectUpstream` leaves in `upBev` when it gets as far as the connect. -/
def dialledBev (server : StratumProxy) (session : Ptr) (serverInfo : PoolInfo) : Bufferevent :=
  bufferevent_enable
    (bufferevent_setcb
      (Bufferevent.create server.nextPtr
        (if serverInfo.enableTLS_ = true then some SslState.connecting else none))
      Leg.up session)
    (EV_READ ||| EV_WRITE)

/-- A configuration whose pool list names the pool `a` twice: first without a host, then with
one. -/
def shadowedConfig : Config :=
  { enable_tls := false
    tls_cert_file := ""
    tls_key_file := ""
    listen_addr := "0.0.0.0"
    listen_port := 3333
    pools := [⟨"a", false, "", 3333, "u", "p", "w"⟩,
      ⟨"a", false, "pool.example", 3333, "u", "p", "w"⟩] }

/-- A configuration whose second pool has no host. -/
def invalidConfig : Config :=
  { shadowedConfig with
    pools := [⟨"a", false, "pool.example", 3333, "u", "p", "w"⟩,
      ⟨"b", false, "", 3333, "u", "p", "w"⟩] }

/-- Every library call of `setup()` succeeds. -/
def setupOk : SetupEnv :=
  { baseNew := true, inet_pton := fun _ => 1, listenerNew := true }

/-- Every library call of the accept and dial paths succeeds. -/
def allOk : CallEnv :=
  { sslNew := true, bevNew := true, evdnsNew := true, connectRes := 0 }

/-- A pool to dial, with TLS. -/
def samplePool : PoolInfo :=
  { enableTLS_ := true, host_ := "pool.example", port_ := 3333, user_ := "u", pwd_ := "p",
    worker_ := "w" }

/-- The proxy before any connection. -/
def idle : StratumProxy := create shadowedConfig 0

/-- The session `listenerCallback` registers in `idle`, at address 2. -/
def accepted : Session :=
  { Session.create none none 3 4 5 6 with
    downSession_ := some
      { ptr := 1, input := [], output := [], ssl := none,
        cb := some { leg := Leg.down, data := 2 }, enabled := 6 } }

/-- The proxy after one accepted connection. -/
def serving : StratumProxy :=
  { idle with
    sessions_ := [2]
    heap := fun q => if q = 2 then some accepted else none
    live := [Resource.analyzer 6, Resource.evdnsBase 5, Resource.evbuffer 4,
      Resource.evbuffer 3, Resource.session 2, Resource.bufferevent 1]
    nextPtr := 7 }

/-- The session of `serving` once `connectUpstream` has dialled `samplePool` for it and the
transport is held as `upSession_`. -/
def dialled : Session :=
  { accepted with upSession_ := some (dialledBev serving 2 samplePool) }

/-- The proxy with that one session, both of its transports allocated. -/
def bridging : StratumProxy :=
  { serving with
    heap := fun q => if q = 2 then some dialled else none
    live := Resource.bufferevent 7 :: serving.live
    nextPtr := 8
    connects := [{ bev := 7, evdns := 5, host := "pool.example", port := 3333 }] }

end StratumProxy

/-! # Properties -/

namespace StratumProxy

theorem evbuffer_copyout_all (b : Bytes) : evbuffer_copyout b (evbuffer_get_length b) = b := by
  simp [evbuffer_copyout, evbuffer_get_length]

theorem evbuffer_drain_all (b : Bytes) : evbuffer_drain b (evbuffer_get_length b) = [] := by
  simp [evbuffer_drain, evbuffer_get_length]

namespace Session

/-! ## Relay with both legs ready -/

theorem step_downRead_ready (s : Session) (d u : Bufferevent) (c : Bytes)
    (hd : s.downSession_ = some d) (hu : s.upSession_ = some u)
    (hur : s.upSessionConnected_ = true) :
    ∃ s1, step (Event.downRead c) s = some (Outcome.running s1) ∧
      s1.downSession_ = some { d with input := [] } ∧
      s1.upSession_ = some { u with output := u.output ++ (s.upBuffer_.data ++ (d.input ++ c)) } ∧
      s1.upBuffer_.data = [] ∧ s1.upSessionConnected_ = true := by
  simp [step, Session.downReadCallback, receive, hd, hu, hur, bufferevent_write_buffer,
    evbuffer_add_buffer, evbuffer_drain_all, evbuffer_copyout_all]

theorem step_upRead_ready (s : Session) (d u : Bufferevent) (c : Bytes)
    (hd : s.downSession_ = some d) (hu : s.upSession_ = some u)
    (hdr : s.downSessionConnected_ = true) :
    ∃ s1, step (Event.upRead c) s = some (Outcome.running s1) ∧
      s1.upSession_ = some { u with input := [] } ∧
      s1.downSession_ =
        some { d with output := d.output ++ (s.downBuffer_.data ++ (u.input ++ c)) } ∧
      s1.downBuffer_.data = [] ∧ s1.downSessionConnected_ = true := by
  simp [step, Session.upReadCallback, receive, hd, hu, hdr, bufferevent_write_buffer,
    evbuffer_add_buffer, evbuffer_drain_all, evbuffer_copyout_all]

theorem run_downReads (cs : List Bytes) :
    ∀ (s : Session) (d u : Bufferevent), s.downSession_ = some d → s.upSession_ = some u →
      s.upSessionConnected_ = true →
      ∃ s2, run (cs.map Event.downRead) s = some (Outcome.running s2) ∧
        (cs = [] → s2 = s) ∧
        (cs ≠ [] → upOutput s2 = u.output ++ (s.upBuffer_.data ++ (d.input ++ cs.flatten)) ∧
          s2.upBuffer_.data = [] ∧ downInput s2 = []) := by
  induction cs with
  | nil => intro s d u _ _ _; exact ⟨s, rfl, fun _ => rfl, fun h => absurd rfl h⟩
  | cons c cs ih =>
    intro s d u hd hu hur
    obtain ⟨s1, hstep, h1d, h1u, h1b, h1ur⟩ := step_downRead_ready s d u c hd hu hur
    obtain ⟨s2, hrun, hnil, hcons⟩ := ih s1 _ _ h1d h1u h1ur
    refine ⟨s2, ?_, fun h => by simp at h, fun _ => ?_⟩
    · simp only [List.map_cons, run, hstep]
      exact hrun
    · by_cases h : cs = []
      · subst h
        rw [hnil rfl]
        simp [upOutput, downInput, h1d, h1u, h1b]
      · obtain ⟨h1, h2, h3⟩ := hcons h
        refine ⟨?_, h2, h3⟩
        rw [h1, h1b]
        simp

theorem run_upReads (cs : List Bytes) :
    ∀ (s : Session) (d u : Bufferevent), s.downSession_ = some d → s.upSession_ = some u →
      s.downSessionConnected_ = true →
      ∃ s2, run (cs.map Event.upRead) s = some (Outcome.running s2) ∧
        (cs = [] → s2 = s) ∧
        (cs ≠ [] →
          downOutput s2 = d.output ++ (s.downBuffer_.data ++ (u.input ++ cs.flatten)) ∧
          s2.downBuffer_.data = [] ∧ upInput s2 = []) := by
  induction cs with
  | nil => intro s d u _ _ _; exact ⟨s, rfl, fun _ => rfl, fun h => absurd rfl h⟩
  | cons c cs ih =>
    intro s d u hd hu hdr
    obtain ⟨s1, hstep, h1u, h1d, h1b, h1dr⟩ := step_upRead_ready s d u c hd hu hdr
    obtain ⟨s2, hrun, hnil, hcons⟩ := ih s1 _ _ h1d h1u h1dr
    refine ⟨s2, ?_, fun h => by simp at h, fun _ => ?_⟩
    · simp only [List.map_cons, run, hstep]
      exact hrun
    · by_cases h : cs = []
      · subst h
        rw [hnil rfl]
        simp [downOutput, upInput, h1d, h1u, h1b]
      · obtain ⟨h1, h2, h3⟩ := hcons h
        refine ⟨?_, h2, h3⟩
        rw [h1, h1b]
        simp

/-- C1: in a session with both legs marked ready (and both transports in place), downstream
read events carrying the chunks `c :: cs`, with no other event in between, leave the session
running and append to the upstream output exactly the prior contents of `upBuffer_`
(pendingToUpstream) followed by the bytes read, in order: what the downstream input still held
(nothing, after any earlier read callback) and then the chunks. Afterwards `upBuffer_` is empty
and the downstream input is drained; as the sequence is arbitrary, that holds after each event.
The same with the legs swapped. -/
theorem relay_in_order_when_both_ready (s : Session) (c : Bytes) (cs : List Bytes)
    (hd : s.downSession_.isSome = true) (hu : s.upSession_.isSome = true)
    (hdr : s.downSessionConnected_ = true) (hur : s.upSessionConnected_ = true) :
    (∃ s2, run ((c :: cs).map Event.downRead) s = some (Outcome.running s2) ∧
        upOutput s2 = upOutput s ++ (s.upBuffer_.data ++ (downInput s ++ (c :: cs).flatten)) ∧
        s2.upBuffer_.data = [] ∧ downInput s2 = []) ∧
    (∃ s2, run ((c :: cs).map Event.upRead) s = some (Outcome.running s2) ∧
        downOutput s2 =
          downOutput s ++ (s.downBuffer_.data ++ (upInput s ++ (c :: cs).flatten)) ∧
        s2.downBuffer_.data = [] ∧ upInput s2 = []) := by
  obtain ⟨d, hd⟩ := Option.isSome_iff_exists.mp hd
  obtain ⟨u, hu⟩ := Option.isSome_iff_exists.mp hu
  constructor
  · obtain ⟨s2, hrun, -, h⟩ := run_downReads (c :: cs) s d u hd hu hur
    exact ⟨s2, hrun, by simpa [upOutput, downInput, hd, hu] using h (by simp)⟩
  · obtain ⟨s2, hrun, -, h⟩ := run_upReads (c :: cs) s d u hd hu hdr
    exact ⟨s2, hrun, by simpa [downOutput, upInput, hd, hu] using h (by simp)⟩

theorem relay_in_order_when_both_ready_witness :
    (relaying.downSession_.isSome = true ∧ relaying.upSession_.isSome = true ∧
      relaying.downSessionConnected_ = true ∧ relaying.upSessionConnected_ = true) ∧
    ((∃ s2, run ([[1], [2, 3]].map Event.downRead) relaying = some (Outcome.running s2) ∧
        upOutput s2 = [7, 1, 2, 3] ∧ s2.upBuffer_.data = [] ∧ downInput s2 = []) ∧
     (∃ s2, run ([[1], [2, 3]].map Event.upRead) relaying = some (Outcome.running s2) ∧
        downOutput s2 = [8, 1, 2, 3] ∧ s2.downBuffer_.data = [] ∧ upInput s2 = [])) :=
  ⟨by decide, relay_in_order_when_both_ready relaying [1] [[2, 3]] rfl rfl rfl rfl⟩

/-! ## Downstream reads before the upstream leg is ready -/

theorem step_withCalls (e : Event) (s : Session) (l : List AnalyzerCall) :
    ∃ l2, step e (s.withCalls l) = (step e s).map (Outcome.withCalls l2) := by
  cases e with
  | downRead c =>
    cases hd : s.downSession_ with
    | none => exact ⟨[], by simp [step, Session.downReadCallback, receive, withCalls, hd]⟩
    | some d =>
      cases hur : s.upSessionConnected_ with
      | false =>
        exact ⟨_, by
          simp only [step, Session.downReadCallback, receive, withCalls, hd, hur,
            Option.map_some', Outcome.withCalls, StratumAnalyzer.call]
          rfl⟩
      | true =>
        cases hu : s.upSession_ with
        | none =>
          exact ⟨[], by simp [step, Session.downReadCallback, receive, withCalls, hd, hur, hu]⟩
        | some u =>
          exact ⟨_, by
            simp only [step, Session.downReadCallback, receive, withCalls, hd, hur, hu,
              Option.map_some', Outcome.withCalls, StratumAnalyzer.call]
            rfl⟩
  | upRead c =>
    cases hu : s.upSession_ with
    | none => exact ⟨[], by simp [step, Session.upReadCallback, receive, withCalls, hu]⟩
    | some u =>
      cases hdr : s.downSessionConnected_ with
      | false =>
        exact ⟨_, by
          simp only [step, Session.upReadCallback, receive, withCalls, hu, hdr,
            Option.map_some', Outcome.withCalls, StratumAnalyzer.call]
          rfl⟩
      | true =>
        cases hd : s.downSession_ with
        | none =>
          exact ⟨[], by simp [step, Session.upReadCallback, receive, withCalls, hd, hdr, hu]⟩
        | some d =>
          exact ⟨_, by
            simp only [step, Session.upReadCallback, receive, withCalls, hd, hdr, hu,
              Option.map_some', Outcome.withCalls, StratumAnalyzer.call]
            rfl⟩
  | downEvent ev =>
    refine ⟨l, ?_⟩
    cases hc : hasFlag ev BEV_EVENT_CONNECTED with
    | false => simp [step, Session.downEventCallback, hc, withCalls, Outcome.withCalls]
    | true =>
      cases hd : s.downSession_ <;>
        simp [step, Session.downEventCallback, hc, withCalls, Outcome.withCalls, hd]
  | upEvent ev =>
    refine ⟨l, ?_⟩
    cases hc : hasFlag ev BEV_EVENT_CONNECTED with
    | false => simp [step, Session.upEventCallback, hc, withCalls, Outcome.withCalls]
    | true =>
      cases hu : s.upSession_ <;>
        simp [step, Session.upEventCallback, hc, withCalls, Outcome.withCalls, hu]
  | login w =>
    exact ⟨_, by
      simp only [step, Session.onSubmitLogin, withCalls, Option.map_some', Outcome.withCalls,
        StratumAnalyzer.call]
      rfl⟩

theorem relayState_withCalls (l : List AnalyzerCall) (o : Outcome) :
    (o.withCalls l).relayState = o.relayState := by
  cases o <;> rfl

/-- What a run does outside the analyzer does not depend on what the analyzer was told. -/
theorem run_withCalls (es : List Event) : ∀ (s : Session) (l : List AnalyzerCall),
    (run es (s.withCalls l)).map Outcome.relayState = (run es s).map Outcome.relayState := by
  induction es with
  | nil => intro s l; rfl
  | cons e es ih =>
    intro s l
    obtain ⟨l2, h⟩ := step_withCalls e s l
    cases hs : step e s with
    | none =>
      rw [hs] at h
      simp [run, hs, h]
    | some o =>
      rw [hs] at h
      cases o with
      | running s1 =>
        simp only [Option.map_some', Outcome.withCalls] at h
        simp only [run, hs, h]
        exact ih s1 l2
      | removed s1 =>
        simp only [Option.map_some', Outcome.withCalls] at h
        simp only [run, hs, h, Option.map_some']
        exact congrArg some (relayState_withCalls l2 (Outcome.removed s1))

theorem step_downRead_idle (s : Session) (d : Bufferevent) (c : Bytes)
    (hd : s.downSession_ = some d) (hur : s.upSessionConnected_ = false) :
    step (Event.downRead c) s = some (Outcome.running
      (withCalls
        (s.analyzer_.calls ++ [AnalyzerCall.addUploadText (d.input ++ c), AnalyzerCall.runOnce])
        { s with
          downSessionConnected_ := true
          downSession_ := some { d with input := [] } })) := by
  simp [step, Session.downReadCallback, receive, hd, hur, evbuffer_drain_all,
    evbuffer_copyout_all, withCalls, StratumAnalyzer.call]

/-- C2: in a session whose upstream leg is not marked ready, a downstream read event carrying
`c` leaves the session running, hands the analyzer exactly the bytes read (what the downstream
input still held, which is nothing after any earlier read callback, then `c`) as upload text,
followed by exactly one `runOnce`; the upstream transport (if any) and `upBuffer_` are unchanged,
the upstream leg is still not ready, `downBuffer_` is unchanged and the downstream input is
empty. The bytes are kept nowhere outside the
analyzer: whatever events follow, everything but the analyzer's record, and so every transport
output at every later time, is what it would be had any other chunk `c2` been read instead. -/
theorem downRead_before_upstream_ready (s : Session) (c : Bytes)
    (hd : s.downSession_.isSome = true) (hur : s.upSessionConnected_ = false) :
    ∃ s1, step (Event.downRead c) s = some (Outcome.running s1) ∧
      s1.analyzer_.calls = s.analyzer_.calls ++
        [AnalyzerCall.addUploadText (downInput s ++ c), AnalyzerCall.runOnce] ∧
      s1.upSession_ = s.upSession_ ∧ s1.upBuffer_ = s.upBuffer_ ∧
      s1.upSessionConnected_ = false ∧
      s1.downBuffer_ = s.downBuffer_ ∧ downInput s1 = [] ∧
      ∀ (c2 : Bytes) (es : List Event),
        (run (Event.downRead c :: es) s).map Outcome.relayState =
          (run (Event.downRead c2 :: es) s).map Outcome.relayState := by
  obtain ⟨d, hd⟩ := Option.isSome_iff_exists.mp hd
  refine ⟨_, step_downRead_idle s d c hd hur, ?_, rfl, rfl, hur, rfl, rfl, ?_⟩
  · simp [withCalls, downInput, hd]
  · intro c2 es
    simp only [run, step_downRead_idle s d _ hd hur]
    rw [run_withCalls, run_withCalls]

theorem downRead_before_upstream_ready_witness :
    (fresh.downSession_.isSome = true ∧ fresh.upSessionConnected_ = false) ∧
    ∃ s1, step (Event.downRead [1, 2]) fresh = some (Outcome.running s1) ∧
      s1.analyzer_.calls = fresh.analyzer_.calls ++
        [AnalyzerCall.addUploadText (downInput fresh ++ [1, 2]), AnalyzerCall.runOnce] ∧
      s1.upSession_ = fresh.upSession_ ∧ s1.upBuffer_ = fresh.upBuffer_ ∧
      s1.upSessionConnected_ = false ∧
      s1.downBuffer_ = fresh.downBuffer_ ∧ downInput s1 = [] ∧
      ∀ (c2 : Bytes) (es : List Event),
        (run (Event.downRead [1, 2] :: es) fresh).map Outcome.relayState =
          (run (Event.downRead c2 :: es) fresh).map Outcome.relayState :=
  ⟨by decide, downRead_before_upstream_ready fresh [1, 2] rfl rfl⟩

/-! ## Upstream bytes on their way downstream -/

/-- One event that leaves the session running adds the chunk it read from upstream, and
nothing else, to what downstream has been given or is owed. -/
theorem step_downstream (e : Event) (s s1 : Session) (h : step e s = some (Outcome.running s1))
    (hi : upInput s = []) :
    downOutput s1 ++ s1.downBuffer_.data = downOutput s ++ s.downBuffer_.data ++ upChunks [e] ∧
      upInput s1 = [] := by
  cases e with
  | downRead c =>
    simp only [step, Session.downReadCallback, receive] at h
    cases hd : s.downSession_ with
    | none => simp [hd] at h
    | some d =>
      cases hur : s.upSessionConnected_ with
      | false =>
        simp [hd, hur] at h
        subst h
        simpa [downOutput, upInput, upChunks, hd] using hi
      | true =>
        cases hu : s.upSession_ with
        | none => simp [hd, hur, hu] at h
        | some u =>
          simp [hd, hur, hu, evbuffer_drain_all, bufferevent_write_buffer,
            evbuffer_add_buffer] at h
          subst h
          simpa [downOutput, upInput, upChunks, hd, hu, bufferevent_write_buffer] using hi
  | upRead c =>
    simp only [step, Session.upReadCallback, receive] at h
    cases hu : s.upSession_ with
    | none => simp [hu] at h
    | some u =>
      have hui : u.input = [] := by simpa [upInput, hu] using hi
      cases hdr : s.downSessionConnected_ with
      | false =>
        simp [hu, hdr, evbuffer_drain_all, evbuffer_add_buffer, evbuffer_copyout_all] at h
        subst h
        simp [downOutput, upInput, upChunks, hui]
      | true =>
        cases hd : s.downSession_ with
        | none => simp [hu, hdr, hd] at h
        | some d =>
          simp [hu, hdr, hd, evbuffer_drain_all, evbuffer_add_buffer, evbuffer_copyout_all,
            bufferevent_write_buffer] at h
          subst h
          simp [downOutput, upInput, upChunks, hui, hd]
  | downEvent ev =>
    simp only [step, Session.downEventCallback] at h
    split at h
    · cases hd : s.downSession_ with
      | none => simp [hd] at h
      | some d =>
        simp [hd, evbuffer_drain_all, evbuffer_add_buffer, bufferevent_write_buffer] at h
        subst h
        simpa [downOutput, upInput, upChunks, hd] using hi
    · simp at h
  | upEvent ev =>
    simp only [step, Session.upEventCallback] at h
    split at h
    · cases hu : s.upSession_ with
      | none => simp [hu] at h
      | some u =>
        simp [hu, evbuffer_drain_all, bufferevent_write_buffer, evbuffer_add_buffer] at h
        subst h
        simpa [downOutput, upInput, upChunks, hu] using hi
    · simp at h
  | login w =>
    simp only [step, Session.onSubmitLogin] at h
    simp at h
    subst h
    simpa [downOutput, upInput, upChunks] using hi

theorem upChunks_cons (e : Event) (es : List Event) :
    upChunks (e :: es) = upChunks [e] ++ upChunks es := by
  cases e <;> simp [upChunks]

theorem run_downstream (es : List Event) : ∀ (s s2 : Session),
    run es s = some (Outcome.running s2) → upInput s = [] →
    downOutput s2 ++ s2.downBuffer_.data = downOutput s ++ s.downBuffer_.data ++ upChunks es := by
  induction es with
  | nil =>
    intro s s2 h _
    simp only [run, Option.some.injEq, Outcome.running.injEq] at h
    subst h
    simp [upChunks]
  | cons e es ih =>
    intro s s2 h hi
    simp only [run] at h
    cases hs : step e s with
    | none => simp [hs] at h
    | some o1 =>
      cases o1 with
      | running s1 =>
        simp only [hs] at h
        obtain ⟨h1, h2⟩ := step_downstream e s s1 hs hi
        rw [ih s1 s2 h h2, h1, upChunks_cons e es]
        simp
      | removed s1 => simp [hs] at h

/-- With both transports in place, an event that is no teardown leaves the session running. -/
theorem step_total (e : Event) (s : Session) (ht : e.isTeardown = false)
    (hd : s.downSession_.isSome = true) (hu : s.upSession_.isSome = true) :
    ∃ s1, step e s = some (Outcome.running s1) ∧
      s1.downSession_.isSome = true ∧ s1.upSession_.isSome = true := by
  obtain ⟨d, hd⟩ := Option.isSome_iff_exists.mp hd
  obtain ⟨u, hu⟩ := Option.isSome_iff_exists.mp hu
  cases e with
  | downRead c =>
    cases hur : s.upSessionConnected_ <;>
      simp [step, Session.downReadCallback, receive, hd, hu, hur]
  | upRead c =>
    cases hdr : s.downSessionConnected_ <;>
      simp [step, Session.upReadCallback, receive, hd, hu, hdr]
  | downEvent ev =>
    simp only [Event.isTeardown, Bool.not_eq_false'] at ht
    simp [step, Session.downEventCallback, ht, hd, hu]
  | upEvent ev =>
    simp only [Event.isTeardown, Bool.not_eq_false'] at ht
    simp [step, Session.upEventCallback, ht, hd, hu]
  | login w =>
    simp [step, Session.onSubmitLogin, hd, hu]

theorem run_total (es : List Event) : ∀ (s : Session), (∀ e ∈ es, e.isTeardown = false) →
    s.downSession_.isSome = true → s.upSession_.isSome = true →
    ∃ s2, run es s = some (Outcome.running s2) := by
  induction es with
  | nil => intro s _ _ _; exact ⟨s, rfl⟩
  | cons e es ih =>
    intro s ht hd hu
    obtain ⟨s1, hs, hd1, hu1⟩ := step_total e s (ht e (List.mem_cons_self e es)) hd hu
    obtain ⟨s2, h2⟩ := ih s1 (fun x hx => ht x (List.mem_cons_of_mem e hx)) hd1 hu1
    exact ⟨s2, by simp only [run, hs]; exact h2⟩

/-- C3: take a session as the constructor leaves it, its upstream transport (if any) holding no
unread input, and deliver any sequence of downstream reads, upstream reads, event callbacks and
logins. Whenever that leaves the session running (so no teardown happened), the bytes handed to
the downstream transport followed by the contents of `downBuffer_` (pendingToDownstream) are
what the transport had been given before, followed by all chunks read from upstream in read
order. With both transports in place, every sequence without a teardown event does leave the
session running. -/
theorem upstream_bytes_conserved (down up : Option Bufferevent) (p1 p2 p3 p4 : Ptr)
    (es : List Event) (hin : upInput (Session.create down up p1 p2 p3 p4) = []) :
    (∀ s, run es (Session.create down up p1 p2 p3 p4) = some (Outcome.running s) →
      downOutput s ++ s.downBuffer_.data =
        downOutput (Session.create down up p1 p2 p3 p4) ++ upChunks es) ∧
    (down.isSome = true → up.isSome = true → (∀ e ∈ es, e.isTeardown = false) →
      ∃ s, run es (Session.create down up p1 p2 p3 p4) = some (Outcome.running s)) := by
  constructor
  · intro s h
    have := run_downstream es _ s h hin
    simpa [Session.create] using this
  · intro hd hu ht
    exact run_total es _ ht hd hu

theorem upstream_bytes_conserved_witness :
    upInput fresh = [] ∧
    ((∀ s, run [Event.upRead [1, 2], Event.downEvent 0x80, Event.upRead [3]] fresh =
          some (Outcome.running s) →
        downOutput s ++ s.downBuffer_.data =
          downOutput fresh ++ upChunks [Event.upRead [1, 2], Event.downEvent 0x80,
            Event.upRead [3]]) ∧
     ((some (Bufferevent.create 1 none)).isSome = true →
      (some (Bufferevent.create 2 none)).isSome = true →
      (∀ e ∈ [Event.upRead [1, 2], Event.downEvent 0x80, Event.upRead [3]],
        e.isTeardown = false) →
      ∃ s, run [Event.upRead [1, 2], Event.downEvent 0x80, Event.upRead [3]] fresh =
        some (Outcome.running s))) :=
  ⟨by decide, upstream_bytes_conserved (some (Bufferevent.create 1 none))
    (some (Bufferevent.create 2 none)) 3 4 5 6
    [Event.upRead [1, 2], Event.downEvent 0x80, Event.upRead [3]] (by decide)⟩

/-! ## The downstream read callback and bytes held for downstream -/

/-- A downstream read event marks the downstream leg ready and leaves `downBuffer_` and the
downstream output as they were. -/
theorem step_downRead_keeps_downBuffer (s s1 : Session) (c : Bytes)
    (h : step (Event.downRead c) s = some (Outcome.running s1)) :
    s1.downSessionConnected_ = true ∧ s1.downBuffer_ = s.downBuffer_ ∧
      downOutput s1 = downOutput s := by
  simp only [step, Session.downReadCallback, receive] at h
  cases hd : s.downSession_ with
  | none => simp [hd] at h
  | some d =>
    cases hur : s.upSessionConnected_ with
    | false =>
      simp [hd, hur] at h
      subst h
      simp [downOutput, hd]
    | true =>
      cases hu : s.upSession_ with
      | none => simp [hd, hur, hu] at h
      | some u =>
        simp [hd, hur, hu] at h
        subst h
        simp [downOutput, hd]

/-- A downstream event callback with the CONNECTED bit marks the downstream leg ready and
moves `downBuffer_` to the downstream output. -/
theorem step_downEvent_connected (s : Session) (events : Nat)
    (hc : hasFlag events BEV_EVENT_CONNECTED = true) (hd : s.downSession_.isSome = true) :
    ∃ s1, step (Event.downEvent events) s = some (Outcome.running s1) ∧
      s1.downSessionConnected_ = true ∧
      downOutput s1 = downOutput s ++ s.downBuffer_.data ∧ s1.downBuffer_.data = [] := by
  obtain ⟨d, hd⟩ := Option.isSome_iff_exists.mp hd
  simp [step, Session.downEventCallback, hc, hd, downOutput, bufferevent_write_buffer,
    evbuffer_add_buffer, evbuffer_drain_all]

/-- C4 (evaluation of the code): upstream delivers three bytes before downstream is ready, so
they are held in `downBuffer_`; then a downstream read event makes the downstream leg ready.
After that event the leg is ready, the three bytes are still in `downBuffer_`, and the
downstream transport has been given nothing. Had a downstream connect-complete event made the
leg ready instead, the three bytes would have been handed to the downstream transport. -/
theorem downRead_leaves_held_bytes :
    (∃ s, run [Event.upRead [104, 105, 10], Event.downRead [1]] fresh =
        some (Outcome.running s) ∧
      s.downSessionConnected_ = true ∧ s.downBuffer_.data = [104, 105, 10] ∧
      downOutput s = []) ∧
    (∃ s, run [Event.upRead [104, 105, 10], Event.downEvent BEV_EVENT_CONNECTED] fresh =
        some (Outcome.running s) ∧
      s.downSessionConnected_ = true ∧ s.downBuffer_.data = [] ∧
      downOutput s = [104, 105, 10]) :=
  ⟨⟨_, rfl, rfl, rfl, rfl⟩, ⟨_, rfl, rfl, rfl, rfl⟩⟩

/-! ## Bytes pending for upstream -/

/-- One event keeps `upBuffer_` empty. -/
theorem step_upBuffer (e : Event) (s : Session) (o : Outcome) (h : step e s = some o)
    (hb : s.upBuffer_.data = []) : o.session.upBuffer_.data = [] := by
  cases e with
  | downRead c =>
    simp only [step, Session.downReadCallback, receive] at h
    cases hd : s.downSession_ with
    | none => simp [hd] at h
    | some d =>
      cases hur : s.upSessionConnected_ with
      | false =>
        simp [hd, hur] at h
        subst h
        simpa [Outcome.session] using hb
      | true =>
        cases hu : s.upSession_ with
        | none => simp [hd, hur, hu] at h
        | some u =>
          simp [hd, hur, hu, evbuffer_drain_all, bufferevent_write_buffer,
            evbuffer_add_buffer] at h
          subst h
          simp [Outcome.session]
  | upRead c =>
    simp only [step, Session.upReadCallback, receive] at h
    cases hu : s.upSession_ with
    | none => simp [hu] at h
    | some u =>
      cases hdr : s.downSessionConnected_ with
      | false =>
        simp [hu, hdr] at h
        subst h
        simpa [Outcome.session] using hb
      | true =>
        cases hd : s.downSession_ with
        | none => simp [hu, hdr, hd] at h
        | some d =>
          simp [hu, hdr, hd] at h
          subst h
          simpa [Outcome.session] using hb
  | downEvent ev =>
    simp only [step, Session.downEventCallback] at h
    split at h
    · cases hd : s.downSession_ with
      | none => simp [hd] at h
      | some d =>
        simp [hd] at h
        subst h
        simpa [Outcome.session] using hb
    · simp at h
      subst h
      simpa [Outcome.session] using hb
  | upEvent ev =>
    simp only [step, Session.upEventCallback] at h
    split at h
    · cases hu : s.upSession_ with
      | none => simp [hu] at h
      | some u =>
        simp [hu, evbuffer_drain_all, bufferevent_write_buffer, evbuffer_add_buffer] at h
        subst h
        simp [Outcome.session]
    · simp at h
      subst h
      simpa [Outcome.session] using hb
  | login w =>
    simp only [step, Session.onSubmitLogin] at h
    simp at h
    subst h
    simpa [Outcome.session] using hb

theorem run_upBuffer (es : List Event) : ∀ (s : Session) (o : Outcome), run es s = some o →
    s.upBuffer_.data = [] → o.session.upBuffer_.data = [] := by
  induction es with
  | nil =>
    intro s o h hb
    simp only [run, Option.some.injEq] at h
    subst h
    exact hb
  | cons e es ih =>
    intro s o h hb
    simp only [run] at h
    cases hs : step e s with
    | none => simp [hs] at h
    | some o1 =>
      cases o1 with
      | running s1 =>
        simp only [hs] at h
        exact ih s1 o h (step_upBuffer e s _ hs hb)
      | removed s1 =>
        simp only [hs, Option.some.injEq] at h
        subst h
        exact step_upBuffer e s _ hs hb

/-- With `upBuffer_` empty, the downstream read callback gives the upstream transport the bytes
it has just read and nothing else (nothing at all when the upstream leg is not ready). -/
theorem step_downRead_upOutput (s s1 : Session) (c : Bytes) (hb : s.upBuffer_.data = [])
    (h : step (Event.downRead c) s = some (Outcome.running s1)) :
    upOutput s1 =
      upOutput s ++ (if s.upSessionConnected_ = true then downInput s ++ c else []) := by
  simp only [step, Session.downReadCallback, receive] at h
  cases hd : s.downSession_ with
  | none => simp [hd] at h
  | some d =>
    cases hur : s.upSessionConnected_ with
    | false =>
      simp [hd, hur] at h
      subst h
      simp [upOutput]
    | true =>
      cases hu : s.upSession_ with
      | none => simp [hd, hur, hu] at h
      | some u =>
        simp [hd, hur, hu, evbuffer_drain_all, bufferevent_write_buffer,
          evbuffer_add_buffer] at h
        subst h
        simp [upOutput, downInput, hu, hd, hb]

/-- With `upBuffer_` empty, the upstream event callback gives the upstream transport nothing. -/
theorem step_upEvent_upOutput (s s1 : Session) (events : Nat) (hb : s.upBuffer_.data = [])
    (h : step (Event.upEvent events) s = some (Outcome.running s1)) :
    upOutput s1 = upOutput s := by
  simp only [step, Session.upEventCallback] at h
  split at h
  · cases hu : s.upSession_ with
    | none => simp [hu] at h
    | some u =>
      simp [hu, evbuffer_drain_all, bufferevent_write_buffer, evbuffer_add_buffer] at h
      subst h
      simp [upOutput, hu, hb]
  · simp at h

/-- C10: in every state a session as the constructor leaves it reaches through downstream
reads, upstream reads, event callbacks and logins, `upBuffer_` (pendingToUpstream) is empty.
So the flush in the downstream read callback adds nothing: the upstream transport is given the
bytes just read and no more; and the flush in the upstream event callback (connect-complete)
gives the upstream transport nothing. -/
theorem pendingToUpstream_always_empty (down up : Option Bufferevent) (p1 p2 p3 p4 : Ptr)
    (es : List Event) (s : Session)
    (h : run es (Session.create down up p1 p2 p3 p4) = some (Outcome.running s)) :
    s.upBuffer_.data = [] ∧
    (∀ c s1, step (Event.downRead c) s = some (Outcome.running s1) →
      upOutput s1 =
        upOutput s ++ (if s.upSessionConnected_ = true then downInput s ++ c else [])) ∧
    (∀ events s1, step (Event.upEvent events) s = some (Outcome.running s1) →
      upOutput s1 = upOutput s) := by
  have hb : s.upBuffer_.data = [] := run_upBuffer es _ _ h rfl
  exact ⟨hb, fun c s1 h1 => step_downRead_upOutput s s1 c hb h1,
    fun events s1 h1 => step_upEvent_upOutput s s1 events hb h1⟩

theorem pendingToUpstream_always_empty_witness :
    run sampleEvents fresh = some (Outcome.running served) ∧
    (served.upBuffer_.data = [] ∧
      (∀ c s1, step (Event.downRead c) served = some (Outcome.running s1) →
        upOutput s1 = upOutput served ++
          (if served.upSessionConnected_ = true then downInput served ++ c else [])) ∧
      (∀ events s1, step (Event.upEvent events) served = some (Outcome.running s1) →
        upOutput s1 = upOutput served)) :=
  ⟨by decide, pendingToUpstream_always_empty (some (Bufferevent.create 1 none))
    (some (Bufferevent.create 2 none)) 3 4 5 6 sampleEvents served (by decide)⟩

end Session

/-! ## Ledger of live resources -/

theorem mem_free (x r : Resource) (l : List Resource) : x ∈ free l r ↔ x ∈ l ∧ x ≠ r := by
  simp [free, List.mem_filter]

theorem bufferevent_not_mem_destroy_down (s : Session) (b : Bufferevent) (l : List Resource)
    (h : s.downSession_ = some b) : Resource.bufferevent b.ptr ∉ Session.destroy s l := by
  cases hu : s.upSession_ <;> simp [Session.destroy, h, hu, mem_free]

theorem bufferevent_not_mem_destroy_up (s : Session) (b : Bufferevent) (l : List Resource)
    (h : s.upSession_ = some b) : Resource.bufferevent b.ptr ∉ Session.destroy s l := by
  cases hd : s.downSession_ <;> simp [Session.destroy, h, hd, mem_free]

/-- The destructor releases both pending buffers and the analyzer. -/
theorem buffers_not_mem_destroy (s : Session) (l : List Resource) :
    Resource.evbuffer s.downBuffer_.ptr ∉ Session.destroy s l ∧
    Resource.evbuffer s.upBuffer_.ptr ∉ Session.destroy s l ∧
    Resource.analyzer s.analyzer_.ptr ∉ Session.destroy s l := by
  cases hd : s.downSession_ <;> cases hu : s.upSession_ <;>
    simp [Session.destroy, hd, hu, mem_free]

/-- The destructor releases no resolver context. -/
theorem evdnsBase_mem_destroy (s : Session) (l : List Resource) (p : Ptr) :
    Resource.evdnsBase p ∈ Session.destroy s l ↔ Resource.evdnsBase p ∈ l := by
  cases hd : s.downSession_ <;> cases hu : s.upSession_ <;>
    simp [Session.destroy, hd, hu, mem_free]

/-- What `removeSession` leaves for a live session. -/
theorem removeSession_live (server : StratumProxy) (data : Ptr) (s : Session)
    (h : server.heap data = some s) :
    ∃ w, removeSession server data = some w ∧
      w.sessions_ = server.sessions_.filter (fun q => decide (q ≠ data)) ∧
      w.heap = (fun q => if q = data then none else server.heap q) ∧
      w.live = free (Session.destroy s server.live) (Resource.session data) ∧
      w.connects = server.connects ∧ w.nextPtr = server.nextPtr := by
  simp [removeSession, h]

/-- The state `serving` is the one `listenerCallback` reaches from `idle`. -/
theorem serving_reached :
    ∃ w, listenerCallback idle allOk = some w ∧ w.sessions_ = serving.sessions_ ∧
      w.live = serving.live ∧ w.nextPtr = serving.nextPtr ∧ w.connects = serving.connects ∧
      ∀ q, w.heap q = serving.heap q :=
  ⟨_, rfl, by decide, by decide, by decide, by decide, fun q => by
    by_cases h : q = 2
    · subst h; decide
    · simp [serving, idle, create, onDownBev, insertSession, store, newSession, alloc, h]⟩

/-! ## Teardown -/

/-- A delivered mask that reports EOF, ERROR or TIMEOUT does not carry the CONNECTED bit. -/
theorem failure_mask_not_connected (what : EventMask)
    (hfail : hasFlag what.events BEV_EVENT_EOF = true ∨
      hasFlag what.events BEV_EVENT_ERROR = true ∨
      hasFlag what.events BEV_EVENT_TIMEOUT = true) :
    hasFlag what.events BEV_EVENT_CONNECTED = false := by
  obtain ⟨r, w, k⟩ := what
  cases r <;> cases w <;> cases k <;>
    first
      | rfl
      | (exfalso; revert hfail; decide)

/-- The state `bridging` is `serving` after `connectUpstream` for its session, the transport
handed back being the one `dialled` holds. -/
theorem bridging_reached :
    ∃ w, connectUpstream serving 2 samplePool allOk = some (true, dialled.upSession_, w) ∧
      w.live = bridging.live ∧ w.nextPtr = bridging.nextPtr ∧
      w.connects = bridging.connects ∧ w.sessions_ = bridging.sessions_ :=
  ⟨_, rfl, by decide, by decide, by decide, by decide⟩

/-- C5: for a registered, live session and every event mask libevent delivers that has the
EOF, ERROR or TIMEOUT bit set, whatever direction bits it carries, the downstream event
callback and the upstream event callback both end with the session out of the registry, the
`Session` object deleted, and its downstream and upstream transports (those it has)
released. -/
theorem teardown_on_failure_event (server : StratumProxy) (data : Ptr) (session : Session)
    (what : EventMask) (hreg : data ∈ server.sessions_)
    (hlive : server.heap data = some session)
    (hfail : hasFlag what.events BEV_EVENT_EOF = true ∨
      hasFlag what.events BEV_EVENT_ERROR = true ∨
      hasFlag what.events BEV_EVENT_TIMEOUT = true) :
    (∃ w, downEventCallback server what.events data = some w ∧
      data ∉ w.sessions_ ∧ w.heap data = none ∧ Resource.session data ∉ w.live ∧
      (∀ b, session.downSession_ = some b → Resource.bufferevent b.ptr ∉ w.live) ∧
      (∀ b, session.upSession_ = some b → Resource.bufferevent b.ptr ∉ w.live)) ∧
    (∃ w, upEventCallback server what.events data = some w ∧
      data ∉ w.sessions_ ∧ w.heap data = none ∧ Resource.session data ∉ w.live ∧
      (∀ b, session.downSession_ = some b → Resource.bufferevent b.ptr ∉ w.live) ∧
      (∀ b, session.upSession_ = some b → Resource.bufferevent b.ptr ∉ w.live)) := by
  have hconn := failure_mask_not_connected what hfail
  constructor
  · obtain ⟨w, hw, hs, hh, hl, -, -⟩ := removeSession_live
      (store server data { session with downSessionConnected_ := false }) data
      { session with downSessionConnected_ := false } (by simp [store])
    refine ⟨w, ?_, ?_, ?_, ?_, ?_, ?_⟩
    · simp [downEventCallback, hlive, Session.downEventCallback, hconn, finish, hw]
    · simp [hs]
    · simp [hh]
    · simp [hl, mem_free]
    · intro b hb
      rw [hl, mem_free]
      exact fun h => bufferevent_not_mem_destroy_down _ b _ hb h.1
    · intro b hb
      rw [hl, mem_free]
      exact fun h => bufferevent_not_mem_destroy_up _ b _ hb h.1
  · obtain ⟨w, hw, hs, hh, hl, -, -⟩ := removeSession_live
      (store server data { session with upSessionConnected_ := false }) data
      { session with upSessionConnected_ := false } (by simp [store])
    refine ⟨w, ?_, ?_, ?_, ?_, ?_, ?_⟩
    · simp [upEventCallback, hlive, Session.upEventCallback, hconn, finish, hw]
    · simp [hs]
    · simp [hh]
    · simp [hl, mem_free]
    · intro b hb
      rw [hl, mem_free]
      exact fun h => bufferevent_not_mem_destroy_down _ b _ hb h.1
    · intro b hb
      rw [hl, mem_free]
      exact fun h => bufferevent_not_mem_destroy_up _ b _ hb h.1

theorem teardown_on_failure_event_witness :
    (2 ∈ bridging.sessions_ ∧ bridging.heap 2 = some dialled ∧
      (dialled.downSession_.map fun b => b.ptr) = some 1 ∧
      (dialled.upSession_.map fun b => b.ptr) = some 7 ∧
      Resource.bufferevent 1 ∈ bridging.live ∧ Resource.bufferevent 7 ∈ bridging.live ∧
      (⟨true, false, EventKind.error⟩ : EventMask).events = 0x21 ∧
      (hasFlag (⟨true, false, EventKind.error⟩ : EventMask).events BEV_EVENT_EOF = true ∨
        hasFlag (⟨true, false, EventKind.error⟩ : EventMask).events BEV_EVENT_ERROR = true ∨
        hasFlag (⟨true, false, EventKind.error⟩ : EventMask).events BEV_EVENT_TIMEOUT = true)) ∧
    ((∃ w, downEventCallback bridging (⟨true, false, EventKind.error⟩ : EventMask).events 2 =
        some w ∧
      2 ∉ w.sessions_ ∧ w.heap 2 = none ∧ Resource.session 2 ∉ w.live ∧
      (∀ b, dialled.downSession_ = some b → Resource.bufferevent b.ptr ∉ w.live) ∧
      (∀ b, dialled.upSession_ = some b → Resource.bufferevent b.ptr ∉ w.live)) ∧
    (∃ w, upEventCallback bridging (⟨true, false, EventKind.error⟩ : EventMask).events 2 =
        some w ∧
      2 ∉ w.sessions_ ∧ w.heap 2 = none ∧ Resource.session 2 ∉ w.live ∧
      (∀ b, dialled.downSession_ = some b → Resource.bufferevent b.ptr ∉ w.live) ∧
      (∀ b, dialled.upSession_ = some b → Resource.bufferevent b.ptr ∉ w.live))) :=
  ⟨by decide, teardown_on_failure_event bridging 2 dialled ⟨true, false, EventKind.error⟩
    (by decide) rfl (Or.inr (Or.inl (by decide)))⟩

/-- The resolver context of a removed session stays allocated. -/
theorem removeSession_keeps_evdnsBase (server w : StratumProxy) (data p : Ptr)
    (h : removeSession server data = some w) (hp : Resource.evdnsBase p ∈ server.live) :
    Resource.evdnsBase p ∈ w.live := by
  cases hs : server.heap data with
  | none => simp [removeSession, hs] at h
  | some s =>
    obtain ⟨w2, hw, -, -, hl, -, -⟩ := removeSession_live server data s hs
    rw [hw, Option.some.injEq] at h
    subst h
    rw [hl, mem_free, evdnsBase_mem_destroy]
    exact ⟨hp, by simp⟩

/-- C6 (evaluation of the code): `removeSession` on the registered session of `serving`, the
state right after one accept. The session leaves the registry and is deleted, both pending
buffers, the transport, the analyzer and the object itself are released, and the resolver
context the constructor created (address 5) is the one resource still allocated, with no
pointer to it left. -/
theorem removeSession_leaks_evdnsBase :
    2 ∈ serving.sessions_ ∧ serving.heap 2 = some accepted ∧ accepted.evdnsBase_ = 5 ∧
    Resource.evdnsBase 5 ∈ serving.live ∧
    ∃ w, removeSession serving 2 = some w ∧ w.sessions_ = [] ∧ (∀ q, w.heap q = none) ∧
      w.live = [Resource.evdnsBase 5] :=
  ⟨by decide, rfl, rfl, by decide, _, rfl, by decide,
    fun q => by by_cases h : q = 2 <;> simp [serving, h], by decide⟩

/-! ## Accept path -/

theorem listenerCallbackTrace_ok (server : StratumProxy) (env : CallEnv)
    (hssl : server.enableTLS_ = true → env.sslNew = true) (hbev : env.bevNew = true)
    (hdns : env.evdnsNew = true) :
    listenerCallbackTrace server env = some
      [(alloc server Resource.bufferevent).2, acceptedState server,
        insertSession (acceptedState server) (server.nextPtr + 1),
        onDownBev (insertSession (acceptedState server) (server.nextPtr + 1))
          (server.nextPtr + 1) (fun b => bufferevent_setcb b Leg.down (server.nextPtr + 1)),
        onDownBev (onDownBev (insertSession (acceptedState server) (server.nextPtr + 1))
          (server.nextPtr + 1) (fun b => bufferevent_setcb b Leg.down (server.nextPtr + 1)))
          (server.nextPtr + 1) (fun b => bufferevent_enable b (EV_READ ||| EV_WRITE))] := by
  cases htls : server.enableTLS_ with
  | false =>
    simp [listenerCallbackTrace, htls, hbev, hdns, newSession, alloc, acceptedState, acceptedBev]
  | true =>
    simp [listenerCallbackTrace, htls, hssl htls, hbev, hdns, newSession, alloc, acceptedState,
      acceptedBev]

/-- C7 (as stated, refuted): a connection is accepted in `idle` and its downstream transport
is constructed, but `evdns_base_new` returns no resolver context. The `Session` constructor
ends in `LOG(FATAL)`: `listenerCallback` has no state to return in, and no session was added
to the registry. -/
theorem accept_aborts_without_resolver :
    idle.enableTLS_ = false ∧ ({ allOk with evdnsNew := false } : CallEnv).bevNew = true ∧
    listenerCallback idle { allOk with evdnsNew := false } = none :=
  ⟨rfl, rfl, rfl⟩

/-- C7 (amended): in a state where every registered session was allocated earlier and no
object sits at an address not yet handed out, an accepted connection whose downstream
transport is constructed (with TLS: `SSL_new` and the transport; without: the transport) and
whose resolver context is created makes `listenerCallback` return with exactly one new session
in the registry and every earlier one kept, the other `Session` objects untouched. The new
session owns the accepted transport as `downSession_`, has no `upSession_`, both flags false
and both pending buffers empty; its transport ends with the downstream callbacks installed
and reading and writing enabled. In every state `listenerCallback` passes through, once that
transport has callbacks installed or reading enabled, the session is already registered. -/
theorem accept_registers_session (server : StratumProxy) (env : CallEnv)
    (hreg : ∀ p ∈ server.sessions_, p < server.nextPtr)
    (hheap : ∀ q, server.nextPtr ≤ q → server.heap q = none)
    (hssl : server.enableTLS_ = true → env.sslNew = true) (hbev : env.bevNew = true)
    (hdns : env.evdnsNew = true) :
    ∃ (states : List StratumProxy) (final : StratumProxy) (session : Ptr) (s : Session)
      (downBev : Bufferevent),
      listenerCallbackTrace server env = some states ∧
      listenerCallback server env = some final ∧
      session ∉ server.sessions_ ∧
      (∀ q, q ∈ final.sessions_ ↔ q = session ∨ q ∈ server.sessions_) ∧
      (∀ q, q ≠ session → final.heap q = server.heap q) ∧
      final.heap session = some s ∧
      s.downSession_ = some downBev ∧ downBev.ptr = server.nextPtr ∧
      downBev.input = [] ∧ downBev.output = [] ∧
      s.upSession_ = none ∧
      s.downSessionConnected_ = false ∧ s.upSessionConnected_ = false ∧
      s.downBuffer_.data = [] ∧ s.upBuffer_.data = [] ∧
      downBev.cb = some { leg := Leg.down, data := session } ∧
      hasFlag downBev.enabled EV_READ = true ∧ hasFlag downBev.enabled EV_WRITE = true ∧
      (∀ w ∈ states, ∀ s1 b, w.heap session = some s1 → s1.downSession_ = some b →
        (b.cb ≠ none ∨ hasFlag b.enabled EV_READ = true) → session ∈ w.sessions_) := by
  have hfresh : server.nextPtr + 1 ∉ server.sessions_ := fun h =>
    absurd (hreg _ h) (Nat.not_lt.mpr (Nat.le_succ _))
  have h1 : server.heap (server.nextPtr + 1) = none := hheap _ (Nat.le_succ _)
  have htrace := listenerCallbackTrace_ok server env hssl hbev hdns
  refine ⟨_,
    onDownBev (onDownBev (insertSession (acceptedState server) (server.nextPtr + 1))
      (server.nextPtr + 1) (fun b => bufferevent_setcb b Leg.down (server.nextPtr + 1)))
      (server.nextPtr + 1) (fun b => bufferevent_enable b (EV_READ ||| EV_WRITE)),
    server.nextPtr + 1,
    { Session.create (some (acceptedBev server)) none (server.nextPtr + 2) (server.nextPtr + 3)
        (server.nextPtr + 4) (server.nextPtr + 5) with
      downSession_ := some (bufferevent_enable
        (bufferevent_setcb (acceptedBev server) Leg.down (server.nextPtr + 1))
        (EV_READ ||| EV_WRITE)) },
    bufferevent_enable (bufferevent_setcb (acceptedBev server) Leg.down (server.nextPtr + 1))
      (EV_READ ||| EV_WRITE),
    htrace, ?_, hfresh, ?_, ?_, ?_, rfl, rfl, rfl, rfl, rfl, rfl, rfl, rfl, rfl, rfl, ?_, ?_, ?_⟩
  · simp [listenerCallback, htrace]
  · intro q
    simp [onDownBev, insertSession, acceptedState, store, Session.create, List.mem_insert_iff]
  · intro q hq
    simp [onDownBev, insertSession, acceptedState, store, Session.create, hq]
  · simp [onDownBev, insertSession, acceptedState, store, Session.create]
  · simp [bufferevent_enable, bufferevent_setcb, acceptedBev, Bufferevent.create, hasFlag,
      EV_READ, EV_WRITE]
  · simp [bufferevent_enable, bufferevent_setcb, acceptedBev, Bufferevent.create, hasFlag,
      EV_READ, EV_WRITE]
  · intro w hw s1 b hs1 hb hcb
    simp only [List.mem_cons, List.mem_singleton, List.not_mem_nil, or_false] at hw
    rcases hw with rfl | rfl | rfl | rfl | rfl
    · simp [alloc, h1] at hs1
    · simp [acceptedState, store, Session.create] at hs1
      subst hs1
      simp [acceptedBev, Bufferevent.create, hasFlag, EV_READ, EV_WRITE] at hb
      subst hb
      simp [hasFlag, EV_READ, EV_WRITE] at hcb
      exact absurd (by decide) hcb
    · simp [insertSession]
    · simp [onDownBev, insertSession, acceptedState, store, Session.create]
    · simp [onDownBev, insertSession, acceptedState, store, Session.create]

theorem accept_registers_session_witness :
    ((∀ p ∈ serving.sessions_, p < serving.nextPtr) ∧
      (∀ q, serving.nextPtr ≤ q → serving.heap q = none) ∧
      (serving.enableTLS_ = true → allOk.sslNew = true) ∧ allOk.bevNew = true ∧
      allOk.evdnsNew = true) ∧
    ∃ (states : List StratumProxy) (final : StratumProxy) (session : Ptr) (s : Session)
      (downBev : Bufferevent),
      listenerCallbackTrace serving allOk = some states ∧
      listenerCallback serving allOk = some final ∧
      session ∉ serving.sessions_ ∧
      (∀ q, q ∈ final.sessions_ ↔ q = session ∨ q ∈ serving.sessions_) ∧
      (∀ q, q ≠ session → final.heap q = serving.heap q) ∧
      final.heap session = some s ∧
      s.downSession_ = some downBev ∧ downBev.ptr = serving.nextPtr ∧
      downBev.input = [] ∧ downBev.output = [] ∧
      s.upSession_ = none ∧
      s.downSessionConnected_ = false ∧ s.upSessionConnected_ = false ∧
      s.downBuffer_.data = [] ∧ s.upBuffer_.data = [] ∧
      downBev.cb = some { leg := Leg.down, data := session } ∧
      hasFlag downBev.enabled EV_READ = true ∧ hasFlag downBev.enabled EV_WRITE = true ∧
      (∀ w ∈ states, ∀ s1 b, w.heap session = some s1 → s1.downSession_ = some b →
        (b.cb ≠ none ∨ hasFlag b.enabled EV_READ = true) → session ∈ w.sessions_) :=
  have hheap : ∀ q, serving.nextPtr ≤ q → serving.heap q = none := fun q hq => by
    have h7 : 7 ≤ q := hq
    have h2 : q ≠ 2 := fun h => by subst h; exact absurd h7 (by decide)
    simp [serving, h2]
  ⟨⟨by decide, hheap, by decide, rfl, rfl⟩,
    accept_registers_session serving allOk (by decide) hheap (by decide) rfl rfl⟩

/-! ## Setup -/

theorem mapAssign_mem_self (m : List (String × PoolInfo)) (k : String) (v : PoolInfo) :
    (k, v) ∈ mapAssign m k v := by
  induction m with
  | nil => simp [mapAssign]
  | cons a m ih =>
    obtain ⟨k0, v0⟩ := a
    by_cases h : k0 = k <;> simp [mapAssign, h, ih]

theorem mapAssign_mem_of_ne (m : List (String × PoolInfo)) (k k2 : String) (v v2 : PoolInfo)
    (h : (k, v) ∈ m) (hne : k2 ≠ k) : (k, v) ∈ mapAssign m k2 v2 := by
  induction m with
  | nil => simp at h
  | cons a m ih =>
    obtain ⟨k0, v0⟩ := a
    by_cases h0 : k0 = k2
    · subst h0
      simp only [mapAssign, if_true, List.mem_cons, Prod.mk.injEq] at h ⊢
      rcases h with ⟨h1, -⟩ | h
      · exact absurd h1.symm hne
      · exact Or.inr h
    · simp only [mapAssign, h0, if_false, List.mem_cons] at h ⊢
      rcases h with h | h
      · exact Or.inl h
      · exact Or.inr (ih h)

theorem loadPools_mem_of_ne (qs : List PoolSetting) : ∀ (m : List (String × PoolInfo))
    (k : String) (v : PoolInfo), (k, v) ∈ m → (∀ q ∈ qs, q.name ≠ k) →
    (k, v) ∈ loadPools m qs := by
  induction qs with
  | nil => intro m k v h _; simpa [loadPools] using h
  | cons q qs ih =>
    intro m k v h hne
    simp only [loadPools, List.foldl_cons]
    exact ih _ k v (mapAssign_mem_of_ne m k q.name v _ h (hne q (List.mem_cons_self q qs)))
      (fun x hx => hne x (List.mem_cons_of_mem q hx))

/-- A pool setting that no later setting of the same name replaces is in the pool table. -/
theorem loadPools_mem (m : List (String × PoolInfo)) (pre post : List PoolSetting)
    (p : PoolSetting) (hpost : ∀ q ∈ post, q.name ≠ p.name) :
    (p.name, p.toPoolInfo) ∈ loadPools m (pre ++ p :: post) := by
  have : loadPools m (pre ++ p :: post) =
      loadPools (mapAssign (loadPools m pre) p.name p.toPoolInfo) post := by
    simp [loadPools, List.foldl_append]
  rw [this]
  exact loadPools_mem_of_ne post _ _ _ (mapAssign_mem_self _ _ _) hpost

/-- C8 (as stated, refuted): the listen address of `shadowedConfig` parses and the listener
binds; the first entry of its pool list has an empty host, and a later entry has the same
name. `setup()` returns true. -/
theorem shadowed_invalid_pool_accepted :
    (∃ p ∈ shadowedConfig.pools, p.host = "" ∨ p.port = 0) ∧
    shadowedConfig.listen_addr.isEmpty = false ∧
    setupOk.inet_pton shadowedConfig.listen_addr ≠ 0 ∧ setupOk.listenerNew = true ∧
    (setup (create shadowedConfig 0) setupOk).1 = true := by
  decide

/-- C8 (amended): when the listen address parses and the listener binds, and an entry of the
configured pool list that no later entry of the same name replaces has an empty host or a
port of zero, `setup()` returns false. -/
theorem setup_rejects_invalid_pool (server : StratumProxy) (env : SetupEnv)
    (pre post : List PoolSetting) (p : PoolSetting)
    (haddr : server.config_.listen_addr.isEmpty = false ∧
      env.inet_pton server.config_.listen_addr ≠ 0)
    (hbind : env.listenerNew = true)
    (hpools : server.config_.pools = pre ++ p :: post)
    (hlast : ∀ q ∈ post, q.name ≠ p.name)
    (hbad : p.host = "" ∨ p.port = 0) :
    (setup server env).1 = false := by
  have hmem := loadPools_mem server.pools_ pre post p hlast
  have hinv : invalidPool (p.name, p.toPoolInfo) = true := by
    have hempty : "".isEmpty = true := by decide
    rcases hbad with h | h <;> simp [invalidPool, PoolSetting.toPoolInfo, h, hempty]
  cases hb : env.baseNew with
  | false => simp [setup, hb]
  | true =>
    have hany : (loadPools server.pools_ server.config_.pools).any invalidPool = true := by
      rw [hpools]
      exact List.any_eq_true.mpr ⟨_, hmem, hinv⟩
    simp [setup, hb, alloc, haddr.1, haddr.2, hbind, hany]

theorem setup_rejects_invalid_pool_witness :
    (((create invalidConfig 0).config_.listen_addr.isEmpty = false ∧
        setupOk.inet_pton (create invalidConfig 0).config_.listen_addr ≠ 0) ∧
      setupOk.listenerNew = true ∧
      (create invalidConfig 0).config_.pools =
        [⟨"a", false, "pool.example", 3333, "u", "p", "w"⟩] ++
          (⟨"b", false, "", 3333, "u", "p", "w"⟩ : PoolSetting) :: [] ∧
      (∀ q ∈ ([] : List PoolSetting),
        q.name ≠ (⟨"b", false, "", 3333, "u", "p", "w"⟩ : PoolSetting).name) ∧
      ((⟨"b", false, "", 3333, "u", "p", "w"⟩ : PoolSetting).host = "" ∨
        (⟨"b", false, "", 3333, "u", "p", "w"⟩ : PoolSetting).port = 0)) ∧
    (setup (create invalidConfig 0) setupOk).1 = false :=
  ⟨by decide, setup_rejects_invalid_pool (create invalidConfig 0) setupOk
    [⟨"a", false, "pool.example", 3333, "u", "p", "w"⟩] []
    ⟨"b", false, "", 3333, "u", "p", "w"⟩ (by decide) rfl rfl (by decide) (Or.inl rfl)⟩

/-! ## Login and the upstream connector -/

theorem connectUpstream_ok (server : StratumProxy) (data : Ptr) (session : Session)
    (serverInfo : PoolInfo) (env : CallEnv) (hlive : server.heap data = some session)
    (hssl : serverInfo.enableTLS_ = true → env.sslNew = true) (hbev : env.bevNew = true) :
    connectUpstream server data serverInfo env = some
      (decide (env.connectRes = 0), some (dialledBev server data serverInfo),
        { server with
          nextPtr := server.nextPtr + 1
          live := Resource.bufferevent server.nextPtr :: server.live
          connects := server.connects ++
            [{ bev := server.nextPtr, evdns := session.evdnsBase_, host := serverInfo.host_,
               port := serverInfo.port_ }] }) := by
  cases htls : serverInfo.enableTLS_ with
  | false =>
    by_cases hres : env.connectRes = 0 <;>
      simp [connectUpstream, htls, hbev, alloc, hlive, hres, dialledBev, bufferevent_enable,
        bufferevent_setcb, Bufferevent.create]
  | true =>
    by_cases hres : env.connectRes = 0 <;>
      simp [connectUpstream, htls, hssl htls, hbev, alloc, hlive, hres, dialledBev,
        bufferevent_enable, bufferevent_setcb, Bufferevent.create]

/-- C9 (as stated, refuted): the login callback fires for the registered session of `serving`.
The worker is recorded and the analyzer is told to run, but no connection attempt has been
issued, no transport has been created and the session still has no upstream transport. -/
theorem login_dials_nothing :
    ∃ w s, onSubmitLogin serving 2 ⟨"wallet", "user", "rig", "x"⟩ = some w ∧
      w.heap 2 = some s ∧ s.worker_ = ⟨"wallet", "user", "rig", "x"⟩ ∧
      w.connects = [] ∧ s.upSession_ = none ∧ w.live = serving.live :=
  ⟨_, _, rfl, rfl, rfl, rfl, rfl, rfl⟩

/-- C9 (amended): when the login callback fires with `worker` for a live session, the
session's recorded worker becomes exactly `worker` and the analyzer is told to run; the
callback issues no connection attempt, creates no transport and leaves `upSession_` and
`poolInfo_` as they were. A connection attempt for that session is what `connectUpstream`
issues when it is called with a pool and its transport is constructed: to that pool's host and
port, through the session's resolver context, on a new transport with the upstream callbacks
installed for the session; it returns true exactly when the connect call returned 0. -/
theorem login_records_worker_only (server : StratumProxy) (data : Ptr) (session : Session)
    (worker : StratumWorker) (serverInfo : PoolInfo) (env : CallEnv)
    (hlive : server.heap data = some session)
    (hssl : serverInfo.enableTLS_ = true → env.sslNew = true) (hbev : env.bevNew = true) :
    (∃ w s, onSubmitLogin server data worker = some w ∧ w.heap data = some s ∧
      s.worker_ = worker ∧
      s.analyzer_.calls = session.analyzer_.calls ++ [AnalyzerCall.run] ∧
      s.upSession_ = session.upSession_ ∧ s.poolInfo_ = session.poolInfo_ ∧
      w.connects = server.connects ∧ w.live = server.live) ∧
    (∃ ok upBev w, connectUpstream server data serverInfo env = some (ok, some upBev, w) ∧
      w.connects = server.connects ++
        [{ bev := upBev.ptr, evdns := session.evdnsBase_, host := serverInfo.host_,
           port := serverInfo.port_ }] ∧
      upBev.cb = some { leg := Leg.up, data := data } ∧
      hasFlag upBev.enabled EV_READ = true ∧
      Resource.bufferevent upBev.ptr ∈ w.live ∧
      (ok = true ↔ env.connectRes = 0)) := by
  constructor
  · exact ⟨store server data (Session.onSubmitLogin session worker),
      Session.onSubmitLogin session worker, by simp [onSubmitLogin, hlive], by simp [store], rfl,
      by simp [Session.onSubmitLogin, StratumAnalyzer.call], rfl, rfl, rfl, rfl⟩
  · refine ⟨_, _, _, connectUpstream_ok server data session serverInfo env hlive hssl hbev,
      rfl, rfl, ?_, ?_, ?_⟩
    · simp [dialledBev, bufferevent_enable, bufferevent_setcb, Bufferevent.create, hasFlag,
        EV_READ, EV_WRITE]
    · simp [dialledBev, bufferevent_enable, bufferevent_setcb, Bufferevent.create]
    · simp

theorem login_records_worker_only_witness :
    (serving.heap 2 = some accepted ∧
      (samplePool.enableTLS_ = true → allOk.sslNew = true) ∧ allOk.bevNew = true) ∧
    ((∃ w s, onSubmitLogin serving 2 ⟨"wallet", "user", "rig", "x"⟩ = some w ∧
      w.heap 2 = some s ∧ s.worker_ = ⟨"wallet", "user", "rig", "x"⟩ ∧
      s.analyzer_.calls = accepted.analyzer_.calls ++ [AnalyzerCall.run] ∧
      s.upSession_ = accepted.upSession_ ∧ s.poolInfo_ = accepted.poolInfo_ ∧
      w.connects = serving.connects ∧ w.live = serving.live) ∧
    (∃ ok upBev w, connectUpstream serving 2 samplePool allOk = some (ok, some upBev, w) ∧
      w.connects = serving.connects ++
        [{ bev := upBev.ptr, evdns := accepted.evdnsBase_, host := samplePool.host_,
           port := samplePool.port_ }] ∧
      upBev.cb = some { leg := Leg.up, data := 2 } ∧
      hasFlag upBev.enabled EV_READ = true ∧
      Resource.bufferevent upBev.ptr ∈ w.live ∧
      (ok = true ↔ allOk.connectRes = 0))) :=
  ⟨⟨rfl, by decide, rfl⟩,
    login_records_worker_only serving 2 accepted ⟨"wallet", "user", "rig", "x"⟩ samplePool allOk
      rfl (by decide) rfl⟩

end StratumProxy
